import Mathlib

/-!
Shallow embedding of the mailiao-shuttle reservation core (src/app.py) and
proofs about the claims of its specification.

Modelling conventions:
* The SQLite database is a `DB` record holding the two tables: the
  `reservations` table is a list of `Reservation` rows in rowid (insertion)
  order, the `available_dates` table is a list of date strings (the
  `date_value` PRIMARY KEY makes it duplicate-free, which `add_available_date`
  enforces by failing on a duplicate insert).
* Python ints (the `family_count` column) are `Int`; dates, MRNs, names and
  phones are `String` (the code stringifies dates before every query).
* The `(Success, Message)` pairs returned by the source functions are modelled
  as small inductive result types whose constructors carry exactly the data
  interpolated into the corresponding message.
-/

/-- One row of the `reservations` table (src/app.py `init_db`): columns
`reserve_date`, `mrn`, `patient_name`, `phone`, `family_count`.  The `id` and
`created_at` columns are informational only and never read by the logic, so
they are omitted. -/
structure Reservation where
  reserve_date : String
  mrn : String
  patient_name : String
  phone : String
  family_count : Int
deriving Repr, DecidableEq

/-- The whole database: the two tables touched by the core functions. -/
structure DB where
  reservations : List Reservation
  available_dates : List String
deriving Repr, DecidableEq

/-- The empty database: no reservations, no available dates. -/
def emptyDB : DB := ⟨[], []⟩

/-- Configuration constant `patient_limit = 4` (src/app.py line 8). -/
def patient_limit : Nat := 4

/-- Configuration constant `seat_limit = 6` (src/app.py line 9). -/
def seat_limit : Int := 6

/-- Result of `add_reservation`, abstracting the `(Success, Message)` pair:
`success` is `(True, "預約成功！")`; `duplicateBooking` is the
"該病患當日已預約" failure; `patientQuotaExceeded` is the
"當日病患名額已滿" failure; `seatQuotaExceeded remaining needed` is the
"剩餘座位不足 (剩餘 {remaining} 席，需要 {needed} 席)" failure, carrying the two
numbers interpolated into the message. -/
inductive AdmitResult where
  | success
  | duplicateBooking
  | patientQuotaExceeded
  | seatQuotaExceeded (remaining : Int) (needed : Int)
deriving Repr, DecidableEq

/-- Result of `cancel_reservation`: `cancelled mrn` is
`(True, "已取消 MRN: {mrn} 的預約。")`, `notFound` is the
`(False, "找不到對應的預約記錄...")` failure. -/
inductive CancelResult where
  | cancelled (mrn : String)
  | notFound
deriving Repr, DecidableEq

/-- `get_reservations(reserve_date)` (src/app.py lines 87-93):
`SELECT * FROM reservations WHERE reserve_date = ?`, read only from the
reservations table, in rowid order. -/
def get_reservations (reservations : List Reservation) (reserve_date : String) :
    List Reservation :=
  reservations.filter (fun r => r.reserve_date == reserve_date)

/-- `add_reservation(reserve_date, mrn, patient_name, phone, family_count)`
(src/app.py lines 95-131), transcribed check for check:
1. duplicate check: `SELECT * FROM reservations WHERE reserve_date = ? AND
   mrn = ?`, fail if a row exists;
2. `current_patients = len(df)`, `current_people = len(df) + sum(family_count)`
   over the rows for the date;
3. fail if `current_patients >= patient_limit`;
4. `needed_seats = 1 + family_count`; fail with the remaining/needed numbers if
   `current_people + needed_seats > seat_limit`;
5. otherwise `INSERT` the new row (appended, autoincrement rowid) and succeed.
Only the reservations table is read or written. -/
def add_reservation (db : DB) (reserve_date mrn patient_name phone : String)
    (family_count : Int) : DB × AdmitResult :=
  if db.reservations.any (fun r => r.reserve_date == reserve_date && r.mrn == mrn) then
    (db, .duplicateBooking)
  else
    let df := get_reservations db.reservations reserve_date
    let current_patients := df.length
    let current_people : Int := (df.length : Int) + (df.map (·.family_count)).sum
    if current_patients ≥ patient_limit then
      (db, .patientQuotaExceeded)
    else
      let needed_seats : Int := 1 + family_count
      if current_people + needed_seats > seat_limit then
        (db, .seatQuotaExceeded (seat_limit - current_people) needed_seats)
      else
        ({ db with reservations :=
            db.reservations ++ [⟨reserve_date, mrn, patient_name, phone, family_count⟩] },
         .success)

/-- `cancel_reservation(mrn, phone)` (src/app.py lines 133-146):
`DELETE FROM reservations WHERE mrn = ? AND phone = ?` (all dates), then
`rows_deleted = c.rowcount`; success iff `rows_deleted > 0`.  Only the
reservations table is touched. -/
def cancel_reservation (db : DB) (mrn phone : String) : DB × CancelResult :=
  let rows_deleted :=
    (db.reservations.filter (fun r => r.mrn == mrn && r.phone == phone)).length
  let db' := { db with reservations :=
    db.reservations.filter (fun r => !(r.mrn == mrn && r.phone == phone)) }
  if rows_deleted > 0 then (db', .cancelled mrn) else (db', .notFound)

/-- `add_available_date(date_str)` (src/app.py lines 62-76):
`INSERT INTO available_dates (date_value) VALUES (?)`; the PRIMARY KEY raises
`IntegrityError` when the date is already present, which the function turns into
a `(False, "已存在")` result; otherwise `(True, "已新增日期")`. -/
def add_available_date (db : DB) (date_str : String) : DB × Bool :=
  if db.available_dates.contains date_str then
    (db, false)
  else
    ({ db with available_dates := db.available_dates ++ [date_str] }, true)

/-- `remove_available_date(date_str)` (src/app.py lines 78-85):
`DELETE FROM available_dates WHERE date_value = ?`, then unconditionally
`return True, "已移除日期: ..."`.  There is no row-count check and no NotFound
branch, and the reservations table is never consulted. -/
def remove_available_date (db : DB) (date_str : String) : DB × Bool :=
  ({ db with available_dates := db.available_dates.filter (fun x => !(x == date_str)) },
   true)

/-- Capacity counter `patientCount` of the spec: the number of reservations
stored for a date (`len(df)` in the source). -/
def patientCount (reservations : List Reservation) (d : String) : Nat :=
  (get_reservations reservations d).length

/-- Capacity counter `totalSeats` of the spec: reservation count plus the sum
of the stored family counts for the date (`len(df) + df['family_count'].sum()`
in the source). -/
def totalSeats (reservations : List Reservation) (d : String) : Int :=
  (patientCount reservations d : Int) +
    ((get_reservations reservations d).map (·.family_count)).sum

/-- A call into the reservation core: an `admit` (`add_reservation`) or a
`cancel` (`cancel_reservation`), with its arguments. -/
inductive Call where
  | book (reserve_date mrn patient_name phone : String) (family_count : Int)
  | cancel (mrn phone : String)
deriving Repr, DecidableEq

/-- Execute one call against the database, keeping the resulting state. -/
def stepCall (db : DB) : Call → DB
  | .book d m n p f => (add_reservation db d m n p f).1
  | .cancel m p => (cancel_reservation db m p).1

/-- Execute a sequence of calls left to right. -/
def runCalls (db : DB) (cs : List Call) : DB := cs.foldl stepCall db

/-- An `admit` call whose `family_count` argument is nonnegative; `cancel`
calls are unrestricted. -/
def familyOk : Call → Prop
  | .book _ _ _ _ f => 0 ≤ f
  | .cancel _ _ => True

instance : DecidablePred familyOk := fun c => by
  cases c with
  | book d m n p f => exact inferInstanceAs (Decidable (0 ≤ f))
  | cancel m p => exact inferInstanceAs (Decidable True)

/-!
Batch date addition (src/app.py lines 209-220, inside `main`).  Calendar dates
are modelled as day ordinals (`Nat`): `curr += Timedelta(days=1)` is `curr + 1`,
`curr <= end_d` is `curr ≤ e`, and `curr.weekday() == target_weekday` is
`curr % 7 = w` (Python's weekday advances by one, modulo 7, per day, so it is
the day ordinal modulo 7 up to a constant shift; the shift is absorbed by
quantifying over the target weekday).  `str` is injective on dates, so the
`available_dates` registry restricted to this loop is a `List Nat` with the
same insert-or-fail behaviour as `add_available_date`.
-/

/-- `add_available_date` on the day-ordinal view of the registry: insert and
report `True`, or fail on the PRIMARY KEY duplicate and report `False`. -/
def add_available_date_ord (dates : List Nat) (d : Nat) : List Nat × Bool :=
  if dates.contains d then (dates, false)
  else (dates ++ [d], true)

/-- The `while curr <= end_d` loop body of the batch add (src/app.py lines
213-219), iterating over the remaining days `days = [curr, …, end]` in order:
on a weekday match, attempt `add_available_date` and increment `count` exactly
when the insert succeeded. -/
def batch_loop (dates : List Nat) (days : List Nat) (w : Nat) (count : Nat) :
    List Nat × Nat :=
  match days with
  | [] => (dates, count)
  | curr :: rest =>
    if curr % 7 = w then
      match add_available_date_ord dates curr with
      | (ds, s) => batch_loop ds rest w (if s then count + 1 else count)
    else batch_loop dates rest w count

/-- `batchAddByWeekday(start, end, weekday)` (src/app.py lines 209-220): if
`start_d > end_d`, show the "日期範圍錯誤" validation error (modelled as the
`false` flag) and touch nothing; otherwise run the loop over every day in
`[start, e]` and report the count with the `true` flag. -/
def batchAddByWeekday (dates : List Nat) (start e w : Nat) :
    List Nat × Nat × Bool :=
  if start > e then (dates, 0, false)
  else
    match batch_loop dates (List.range' start (e + 1 - start)) w 0 with
    | (ds, c) => (ds, c, true)

/-- The matching-weekday days of `days` that are not already registered: the
days the batch loop actually inserts. -/
def newMatches (dates : List Nat) (days : List Nat) (w : Nat) : List Nat :=
  days.filter (fun d => d % 7 == w && !dates.contains d)

/-- Every stored row has a nonnegative family count. -/
def RowsNonneg (l : List Reservation) : Prop := ∀ r ∈ l, 0 ≤ r.family_count

/-- The capacity invariant of the spec, per date: at most `patient_limit`
reservations and at most `seat_limit` total seats. -/
def CapInv (l : List Reservation) : Prop :=
  ∀ d, patientCount l d ≤ patient_limit ∧ totalSeats l d ≤ seat_limit

/-- Call sequence that drives `totalSeats` above `seat_limit`: an admit with
family count `-100`, an admit with family count `100` (the negative row makes
the seat check pass), then cancellation of the first row. -/
def seatBreachCalls : List Call :=
  [.book "2026-03-05" "A1" "n" "p1" (-100),
   .book "2026-03-05" "B2" "n" "p2" 100,
   .cancel "A1" "p1"]

/-- A small admissible call sequence: admit, cancel, admit, every family
count in {0, 1}. -/
def okCalls : List Call :=
  [.book "2026-03-05" "M1" "A" "0900" 1,
   .cancel "M1" "0900",
   .book "2026-03-05" "M2" "B" "0901" 0]

/-- A date with four reservations (patient quota full). -/
def dbFullPatients : DB :=
  ⟨[⟨"2026-03-05", "M1", "A", "091", 0⟩, ⟨"2026-03-05", "M2", "B", "092", 0⟩,
    ⟨"2026-03-05", "M3", "C", "093", 0⟩, ⟨"2026-03-05", "M4", "D", "094", 0⟩],
   ["2026-03-05"]⟩

/-- The state after three familyCount-1 admissions on date `2026-03-05` from
the empty database (6 of 6 seats taken by 3 patients). -/
def dbThreeFamilies : DB :=
  runCalls emptyDB
    [.book "2026-03-05" "M1" "A" "091" 1,
     .book "2026-03-05" "M2" "B" "092" 1,
     .book "2026-03-05" "M3" "C" "093" 1]

/-- One reservation for patient `M` with phone `P`. -/
def dbOneBooking : DB := ⟨[⟨"d1", "M", "N", "P", 0⟩], []⟩

/-- Two reservations for patient `M` with phone `P`, on two different dates. -/
def dbTwoBookings : DB :=
  ⟨[⟨"d1", "M", "N", "P", 0⟩, ⟨"d2", "M", "N2", "P", 1⟩], []⟩

/-!
Helper lemmas shared by the claim theorems.
-/

/-- Restatement of `add_reservation` with the derived capacity counters named:
definitionally equal to the source transcription. -/
theorem add_reservation_eq (db : DB) (d m n p : String) (f : Int) :
    add_reservation db d m n p f =
      if db.reservations.any (fun r => r.reserve_date == d && r.mrn == m) then
        (db, .duplicateBooking)
      else if patientCount db.reservations d ≥ patient_limit then
        (db, .patientQuotaExceeded)
      else if totalSeats db.reservations d + (1 + f) > seat_limit then
        (db, .seatQuotaExceeded (seat_limit - totalSeats db.reservations d) (1 + f))
      else
        ({ db with reservations :=
            db.reservations ++ [⟨d, m, n, p, f⟩] }, .success) := rfl

/-!
Claim theorems.
-/

/-- C6 counterexample: with `2026-03-05` absent from the (empty) registry,
`remove_available_date` still reports success — it never returns a NotFound
failure, contradicting the claim that an absent date fails with `NotFound`. -/
theorem remove_available_date_absent_counterexample :
    emptyDB.available_dates.contains "2026-03-05" = false ∧
      remove_available_date emptyDB "2026-03-05" = (emptyDB, true) := by
  decide

/-- C6 (amended): `remove_available_date` always reports success; it deletes
the date from the registry unconditionally — without consulting the
reservations table, which it leaves untouched — and when the date is absent it
is a no-op that still reports success rather than failing with NotFound. -/
theorem remove_available_date_spec (db : DB) (d : String) :
    (remove_available_date db d).2 = true ∧
    (remove_available_date db d).1.reservations = db.reservations ∧
    d ∉ (remove_available_date db d).1.available_dates ∧
    (∀ x ∈ db.available_dates, x ≠ d →
      x ∈ (remove_available_date db d).1.available_dates) ∧
    (∀ x ∈ (remove_available_date db d).1.available_dates,
      x ∈ db.available_dates) ∧
    (d ∉ db.available_dates → remove_available_date db d = (db, true)) := by
  refine ⟨rfl, rfl, ?_, ?_, ?_, ?_⟩
  · intro hmem
    have := List.mem_filter.mp hmem
    simp at this
  · intro x hx hne
    exact List.mem_filter.mpr ⟨hx, by simp [hne]⟩
  · intro x hx
    exact (List.mem_filter.mp hx).1
  · intro habs
    have hfix : db.available_dates.filter (fun x => !(x == d)) = db.available_dates := by
      apply List.filter_eq_self.mpr
      intro a ha
      simp
      intro hcontra
      exact habs (hcontra ▸ ha)
    simp [remove_available_date, hfix]

/-- C6 witness: removing `2026-03-05` from a registry holding `2026-03-05` and
`2026-03-10` succeeds, drops exactly that date, and keeps `2026-03-10`. -/
theorem remove_available_date_spec_witness :
    (remove_available_date ⟨[], ["2026-03-05", "2026-03-10"]⟩ "2026-03-05").2 = true ∧
    "2026-03-05" ∉
      (remove_available_date ⟨[], ["2026-03-05", "2026-03-10"]⟩ "2026-03-05").1.available_dates ∧
    "2026-03-10" ∈
      (remove_available_date ⟨[], ["2026-03-05", "2026-03-10"]⟩ "2026-03-05").1.available_dates :=
  ⟨(remove_available_date_spec ⟨[], ["2026-03-05", "2026-03-10"]⟩ "2026-03-05").1,
   (remove_available_date_spec ⟨[], ["2026-03-05", "2026-03-10"]⟩ "2026-03-05").2.2.1,
   (remove_available_date_spec ⟨[], ["2026-03-05", "2026-03-10"]⟩ "2026-03-05").2.2.2.1
     "2026-03-10" (by decide) (by decide)⟩

/-- C8: the outcome of `add_reservation` is independent of the
`available_dates` table — two databases with the same reservations yield the
same admission result and the same new reservations list, each leaving its own
`available_dates` untouched; in particular an admission for a date absent from
the (here empty) availability registry still succeeds and inserts the row. -/
theorem add_reservation_independent_of_available_dates :
    (∀ db₁ db₂ : DB, db₁.reservations = db₂.reservations →
      ∀ (d m n p : String) (f : Int),
        (add_reservation db₁ d m n p f).2 = (add_reservation db₂ d m n p f).2 ∧
        (add_reservation db₁ d m n p f).1.reservations =
          (add_reservation db₂ d m n p f).1.reservations ∧
        (add_reservation db₁ d m n p f).1.available_dates = db₁.available_dates) ∧
    add_reservation emptyDB "2026-03-05" "M1" "A" "0900" 0 =
      (⟨[⟨"2026-03-05", "M1", "A", "0900", 0⟩], []⟩, .success) := by
  constructor
  · intro db₁ db₂ h d m n p f
    rw [add_reservation_eq, add_reservation_eq, h]
    by_cases h1 : (db₂.reservations.any fun r => r.reserve_date == d && r.mrn == m) = true
    · simp [h1, h]
    · simp only [h1, Bool.false_eq_true, if_false, Bool.not_eq_true] at *
      by_cases h2 : patientCount db₂.reservations d ≥ patient_limit
      · simp [h1, h2, h]
      · by_cases h3 : totalSeats db₂.reservations d + (1 + f) > seat_limit
        · simp [h1, h2, h3, h]
        · simp [h1, h2, h3, h]
  · decide

/-- C7: whenever `add_reservation` returns a failure (any non-success result),
the database is returned unchanged — no row is inserted, deleted or modified
on any failure path. -/
theorem add_reservation_failure_no_mutation (db : DB) (d m n p : String) (f : Int)
    (h : (add_reservation db d m n p f).2 ≠ .success) :
    (add_reservation db d m n p f).1 = db := by
  rw [add_reservation_eq] at h ⊢
  split
  · rfl
  next h1 =>
    split
    · rfl
    next h2 =>
      split
      · rfl
      next h3 =>
        rw [if_neg h1, if_neg h2, if_neg h3] at h
        exact absurd rfl h

/-- C7 witness: a duplicate admission against `dbOneBooking` fails and leaves
the database exactly as it was. -/
theorem add_reservation_failure_no_mutation_witness :
    (add_reservation dbOneBooking "d1" "M" "X" "Q" 0).2 ≠ .success ∧
    (add_reservation dbOneBooking "d1" "M" "X" "Q" 0).1 = dbOneBooking :=
  ⟨by decide, add_reservation_failure_no_mutation dbOneBooking "d1" "M" "X" "Q" 0 (by decide)⟩

/-- C3: if a reservation with the same date and mrn already exists (the
duplicate SELECT finds a row), `add_reservation` fails with `DuplicateBooking`
and leaves the database unchanged, regardless of the capacity state — the
duplicate check short-circuits before the patient-quota and seat-quota
checks. -/
theorem add_reservation_duplicate_first (db : DB) (d m n p : String) (f : Int)
    (h : (db.reservations.any fun r => r.reserve_date == d && r.mrn == m) = true) :
    add_reservation db d m n p f = (db, .duplicateBooking) := by
  rw [add_reservation_eq]
  simp [h]

/-- C3 witness: on a date whose patient quota is already full (4 of 4) and
whose seat arithmetic would also fail, a repeat booking for `M1` still fails
with `DuplicateBooking`, not with a quota error. -/
theorem add_reservation_duplicate_first_witness :
    (dbFullPatients.reservations.any fun r =>
        r.reserve_date == "2026-03-05" && r.mrn == "M1") = true ∧
    patientCount dbFullPatients.reservations "2026-03-05" ≥ patient_limit ∧
    add_reservation dbFullPatients "2026-03-05" "M1" "A" "091" 0 =
      (dbFullPatients, .duplicateBooking) :=
  ⟨by decide, by decide,
   add_reservation_duplicate_first dbFullPatients "2026-03-05" "M1" "A" "091" 0 (by decide)⟩

/-- C2 (code evaluation): `add_reservation` performs no familyCount
validation — called on the empty database with `family_count = 2` (neither 0
nor 1) it succeeds and inserts the row instead of failing with an
InvalidInput error. -/
theorem add_reservation_accepts_invalid_familyCount :
    add_reservation emptyDB "2026-03-05" "MRN1" "A" "0900" 2 =
      (⟨[⟨"2026-03-05", "MRN1", "A", "0900", 2⟩], []⟩, .success) := by
  decide

/-- C10: the duplicate check of `add_reservation` compares only the pair
(date, mrn) and ignores every other field: whenever a row with the same date
and mrn exists the call fails with `DuplicateBooking` (whatever name and phone
are submitted), whenever no such row exists the call never yields
`DuplicateBooking`, and if moreover both capacity checks pass it succeeds and
appends the row. -/
theorem duplicate_check_only_date_and_mrn (db : DB) (d m n p : String) (f : Int) :
    ((db.reservations.any fun r => r.reserve_date == d && r.mrn == m) = true →
      (add_reservation db d m n p f).2 = .duplicateBooking) ∧
    ((db.reservations.any fun r => r.reserve_date == d && r.mrn == m) = false →
      (add_reservation db d m n p f).2 ≠ .duplicateBooking) ∧
    ((db.reservations.any fun r => r.reserve_date == d && r.mrn == m) = false →
      patientCount db.reservations d < patient_limit →
      totalSeats db.reservations d + (1 + f) ≤ seat_limit →
      add_reservation db d m n p f =
        ({ db with reservations := db.reservations ++ [⟨d, m, n, p, f⟩] }, .success)) := by
  refine ⟨?_, ?_, ?_⟩
  · intro h
    rw [add_reservation_eq]
    simp [h]
  · intro h
    rw [add_reservation_eq]
    rw [if_neg (by simp [h])]
    split
    · simp
    · split <;> simp
  · intro h1 h2 h3
    rw [add_reservation_eq, if_neg (by simp [h1]), if_neg (Nat.not_le.mpr h2),
      if_neg (not_lt.mpr h3)]

/-- C10 witness: against `dbOneBooking` (patient `M`, name `N`, phone `P` on
date `d1`), a booking for (`d1`, `M`) with a different name and phone fails
with `DuplicateBooking`, while a booking for the same patient on date `d2`
passes the duplicate check and succeeds. -/
theorem duplicate_check_only_date_and_mrn_witness :
    (dbOneBooking.reservations.any fun r => r.reserve_date == "d1" && r.mrn == "M") = true ∧
    (add_reservation dbOneBooking "d1" "M" "Bob" "Q" 0).2 = .duplicateBooking ∧
    (dbOneBooking.reservations.any fun r => r.reserve_date == "d2" && r.mrn == "M") = false ∧
    add_reservation dbOneBooking "d2" "M" "N" "P" 0 =
      ({ dbOneBooking with
          reservations := dbOneBooking.reservations ++ [⟨"d2", "M", "N", "P", 0⟩] },
        .success) :=
  ⟨by decide,
   (duplicate_check_only_date_and_mrn dbOneBooking "d1" "M" "Bob" "Q" 0).1 (by decide),
   by decide,
   (duplicate_check_only_date_and_mrn dbOneBooking "d2" "M" "N" "P" 0).2.2
     (by decide) (by decide) (by decide)⟩

/-- C4: once the duplicate and patient-quota checks pass, `add_reservation`
fails with `SeatQuotaExceeded` exactly when `totalSeats + 1 + familyCount`
exceeds `seat_limit`; the error carries exactly the remaining seats
`seat_limit - totalSeats` and the needed seats `1 + familyCount`, and
otherwise the call succeeds. -/
theorem seat_quota_exact (db : DB) (d m n p : String) (f : Int)
    (hdup : (db.reservations.any fun r => r.reserve_date == d && r.mrn == m) = false)
    (hpat : patientCount db.reservations d < patient_limit) :
    ((add_reservation db d m n p f).2 =
        .seatQuotaExceeded (seat_limit - totalSeats db.reservations d) (1 + f) ↔
      totalSeats db.reservations d + (1 + f) > seat_limit) ∧
    (totalSeats db.reservations d + (1 + f) > seat_limit →
      add_reservation db d m n p f =
        (db, .seatQuotaExceeded (seat_limit - totalSeats db.reservations d) (1 + f))) ∧
    (totalSeats db.reservations d + (1 + f) ≤ seat_limit →
      (add_reservation db d m n p f).2 = .success) := by
  have hd : ¬((db.reservations.any fun r => r.reserve_date == d && r.mrn == m) = true) := by
    simp [hdup]
  have hp : ¬(patientCount db.reservations d ≥ patient_limit) := Nat.not_le.mpr hpat
  refine ⟨⟨?_, ?_⟩, ?_, ?_⟩
  · intro h
    by_contra hs
    rw [add_reservation_eq, if_neg hd, if_neg hp, if_neg hs] at h
    simp at h
  · intro hs
    rw [add_reservation_eq, if_neg hd, if_neg hp, if_pos hs]
  · intro hs
    rw [add_reservation_eq, if_neg hd, if_neg hp, if_pos hs]
  · intro hs
    rw [add_reservation_eq, if_neg hd, if_neg hp, if_neg (not_lt.mpr hs)]

/-- C4 witness: the spec's scenario — after three familyCount-1 admissions on
`2026-03-05` starting from the empty database (3 patients, 6 of 6 seats), a
fourth admission with familyCount 0 fails with `SeatQuotaExceeded` reporting 0
remaining seats and 1 needed seat. -/
theorem seat_quota_exact_witness :
    dbThreeFamilies.reservations.length = 3 ∧
    patientCount dbThreeFamilies.reservations "2026-03-05" = 3 ∧
    totalSeats dbThreeFamilies.reservations "2026-03-05" = 6 ∧
    add_reservation dbThreeFamilies "2026-03-05" "M4" "D" "094" 0 =
      (dbThreeFamilies, .seatQuotaExceeded 0 1) :=
  ⟨by decide, by decide, by decide,
   ((seat_quota_exact dbThreeFamilies "2026-03-05" "M4" "D" "094" 0
       (by decide) (by decide)).2.1 (by decide)).trans (by decide)⟩

/-- C5 counterexample: `cancel_reservation` does not return the count of
deleted rows — two calls that delete 1 row (`dbOneBooking`) and 2 rows
(`dbTwoBookings`) return exactly the same value, so the returned value cannot
carry the deleted count. -/
theorem cancel_result_not_count_counterexample :
    (dbOneBooking.reservations.filter fun r => r.mrn == "M" && r.phone == "P").length = 1 ∧
    (dbTwoBookings.reservations.filter fun r => r.mrn == "M" && r.phone == "P").length = 2 ∧
    (cancel_reservation dbOneBooking "M" "P").2 = (cancel_reservation dbTwoBookings "M" "P").2 := by
  decide

/-- C5 (amended): `cancel_reservation` deletes exactly the reservations,
across all dates, whose mrn and phone both match the arguments, leaves the
available-dates registry untouched, reports success (echoing the mrn) iff at
least one row matched, and fails with the not-found message iff zero rows
matched — in which case the database is unchanged.  The deleted count is
computed internally only to decide success and is not part of the returned
value. -/
theorem cancel_reservation_spec (db : DB) (mrn phone : String) :
    (cancel_reservation db mrn phone).1.reservations =
      db.reservations.filter (fun r => !(r.mrn == mrn && r.phone == phone)) ∧
    (cancel_reservation db mrn phone).1.available_dates = db.available_dates ∧
    ((cancel_reservation db mrn phone).2 = .notFound ↔
      (db.reservations.filter fun r => r.mrn == mrn && r.phone == phone).length = 0) ∧
    ((db.reservations.filter fun r => r.mrn == mrn && r.phone == phone).length = 0 →
      cancel_reservation db mrn phone = (db, .notFound)) ∧
    ((cancel_reservation db mrn phone).2 ≠ .notFound →
      (cancel_reservation db mrn phone).2 = .cancelled mrn) := by
  by_cases hk : 0 < (db.reservations.filter fun r => r.mrn == mrn && r.phone == phone).length
  · have hres : cancel_reservation db mrn phone =
        ({ db with reservations :=
            db.reservations.filter fun r => !(r.mrn == mrn && r.phone == phone) },
          .cancelled mrn) := by
      simp only [cancel_reservation]
      rw [if_pos hk]
    rw [hres]
    exact ⟨rfl, rfl,
      ⟨fun h => absurd h (by simp), fun h0 => absurd h0 (by omega)⟩,
      fun h0 => absurd h0 (by omega),
      fun _ => rfl⟩
  · have hk0 : (db.reservations.filter fun r => r.mrn == mrn && r.phone == phone).length = 0 := by
      omega
    have hnil : db.reservations.filter (fun r => r.mrn == mrn && r.phone == phone) = [] :=
      List.length_eq_zero.mp hk0
    have hself : db.reservations.filter (fun r => !(r.mrn == mrn && r.phone == phone)) =
        db.reservations := by
      apply List.filter_eq_self.mpr
      intro a ha
      have h2 := List.filter_eq_nil_iff.mp hnil a ha
      simp only [Bool.not_eq_true] at h2
      simp [h2]
    have hres : cancel_reservation db mrn phone = (db, .notFound) := by
      simp only [cancel_reservation]
      rw [if_neg hk, hself]
    rw [hres]
    exact ⟨hself.symm, rfl, ⟨fun _ => hk0, fun _ => rfl⟩, fun _ => rfl,
      fun h => absurd rfl h⟩

/-- C5 witness: cancelling (`M`, `P`) against `dbTwoBookings` removes both of
that patient's bookings (on both dates) and reports success; cancelling an
unknown credential pair against the same database reports not-found and leaves
it unchanged. -/
theorem cancel_reservation_spec_witness :
    (cancel_reservation dbTwoBookings "M" "P").1.reservations = [] ∧
    (cancel_reservation dbTwoBookings "M" "P").2 = .cancelled "M" ∧
    cancel_reservation dbTwoBookings "M" "Q" = (dbTwoBookings, .notFound) :=
  ⟨((cancel_reservation_spec dbTwoBookings "M" "P").1).trans (by decide),
   (cancel_reservation_spec dbTwoBookings "M" "P").2.2.2.2
     (fun h => absurd ((cancel_reservation_spec dbTwoBookings "M" "P").2.2.1.mp h) (by decide)),
   (cancel_reservation_spec dbTwoBookings "M" "Q").2.2.2.1 (by decide)⟩

/-- Reservations for a date, after prepending a row: kept iff its date
matches. -/
theorem get_reservations_cons (r : Reservation) (l : List Reservation) (d : String) :
    get_reservations (r :: l) d =
      if r.reserve_date == d then r :: get_reservations l d
      else get_reservations l d := by
  simp only [get_reservations, List.filter_cons]

/-- Patient count after prepending a row. -/
theorem patientCount_cons (r : Reservation) (l : List Reservation) (d : String) :
    patientCount (r :: l) d =
      (if r.reserve_date == d then 1 else 0) + patientCount l d := by
  simp only [patientCount, get_reservations_cons]
  split <;> simp [Nat.add_comm]

/-- Seat total after prepending a row. -/
theorem totalSeats_cons (r : Reservation) (l : List Reservation) (d : String) :
    totalSeats (r :: l) d =
      (if r.reserve_date == d then 1 + r.family_count else 0) + totalSeats l d := by
  simp only [totalSeats, patientCount, get_reservations_cons]
  split
  · simp only [List.length_cons, List.map_cons, List.sum_cons]
    push_cast
    ring
  · simp

/-- Patient count after appending a row at the end. -/
theorem patientCount_append (l : List Reservation) (r : Reservation) (d : String) :
    patientCount (l ++ [r]) d =
      patientCount l d + (if r.reserve_date == d then 1 else 0) := by
  simp only [patientCount, get_reservations, List.filter_append, List.length_append]
  cases hc : r.reserve_date == d <;> simp [List.filter_cons, hc]

/-- Seat total after appending a row at the end. -/
theorem totalSeats_append (l : List Reservation) (r : Reservation) (d : String) :
    totalSeats (l ++ [r]) d =
      totalSeats l d + (if r.reserve_date == d then 1 + r.family_count else 0) := by
  simp only [totalSeats, patientCount, get_reservations, List.filter_append,
    List.length_append, List.map_append, List.sum_append]
  cases hc : r.reserve_date == d
  · simp [List.filter_cons, hc]
  · simp only [List.filter_cons, hc, if_true, List.filter_nil, List.length_cons,
      List.length_nil, List.map_cons, List.map_nil, List.sum_cons, List.sum_nil,
      cond_true]
    push_cast
    ring

/-- `add_reservation` either leaves the reservations untouched or — when the
checks for its own date pass — appends exactly the new row. -/
theorem add_reservation_reservations_cases (db : DB) (d m n p : String) (f : Int) :
    (add_reservation db d m n p f).1.reservations = db.reservations ∨
    ((add_reservation db d m n p f).1.reservations =
        db.reservations ++ [⟨d, m, n, p, f⟩] ∧
      patientCount db.reservations d < patient_limit ∧
      totalSeats db.reservations d + (1 + f) ≤ seat_limit) := by
  rw [add_reservation_eq]
  split
  · exact Or.inl rfl
  · split
    · exact Or.inl rfl
    next h2 =>
      split
      · exact Or.inl rfl
      next h3 =>
        exact Or.inr ⟨rfl, Nat.lt_of_not_le h2, le_of_not_lt h3⟩

/-- Filtering a ledger of nonnegative-family rows can only shrink both
capacity counters. -/
theorem counters_filter_le (q : Reservation → Bool) (l : List Reservation) (d : String)
    (hrows : RowsNonneg l) :
    patientCount (l.filter q) d ≤ patientCount l d ∧
    totalSeats (l.filter q) d ≤ totalSeats l d := by
  induction l with
  | nil => simp [patientCount, totalSeats, get_reservations]
  | cons r t ih =>
    have hr : 0 ≤ r.family_count := hrows r (List.mem_cons_self r t)
    have iht := ih (fun x hx => hrows x (List.mem_cons_of_mem r hx))
    rw [List.filter_cons]
    by_cases hq : q r = true
    · rw [if_pos hq, patientCount_cons, patientCount_cons, totalSeats_cons, totalSeats_cons]
      by_cases hc : (r.reserve_date == d) = true
      · simp only [if_pos hc]
        exact ⟨by omega, by omega⟩
      · simp only [if_neg hc]
        exact ⟨by omega, by omega⟩
    · rw [if_neg hq, patientCount_cons, totalSeats_cons]
      by_cases hc : (r.reserve_date == d) = true
      · simp only [if_pos hc]
        exact ⟨by omega, by omega⟩
      · simp only [if_neg hc]
        exact ⟨by omega, by omega⟩

/-- One call preserves row nonnegativity and the capacity invariant, provided
an admit call carries a nonnegative family count. -/
theorem stepCall_preserves (db : DB) (c : Call) (hc : familyOk c)
    (hrows : RowsNonneg db.reservations) (hinv : CapInv db.reservations) :
    RowsNonneg (stepCall db c).reservations ∧ CapInv (stepCall db c).reservations := by
  cases c with
  | book d m n p f =>
    simp only [stepCall]
    rcases add_reservation_reservations_cases db d m n p f with h | ⟨h, hp, hs⟩
    · rw [h]; exact ⟨hrows, hinv⟩
    · rw [h]
      constructor
      · intro r hr
        rcases List.mem_append.mp hr with hr | hr
        · exact hrows r hr
        · have hr' : r = ⟨d, m, n, p, f⟩ := by simpa using hr
          rw [hr']
          exact hc
      · intro d'
        rw [patientCount_append, totalSeats_append]
        have hd' := hinv d'
        by_cases he : d = d'
        · subst he
          have heb : (Reservation.mk d m n p f).reserve_date == d := by simp
          rw [if_pos heb, if_pos heb]
          simp only [patient_limit, seat_limit] at *
          exact ⟨by omega, by omega⟩
        · have heb : ¬((Reservation.mk d m n p f).reserve_date == d') = true := by
            simpa using he
          rw [if_neg heb, if_neg heb]
          simpa using hd'
  | cancel m p =>
    have hsub : (stepCall db (.cancel m p)).reservations =
        db.reservations.filter (fun r => !(r.mrn == m && r.phone == p)) := by
      simp only [stepCall, cancel_reservation]
      split <;> rfl
    rw [hsub]
    constructor
    · intro r hr
      exact hrows r (List.mem_of_mem_filter hr)
    · intro d'
      have h := counters_filter_le (fun r => !(r.mrn == m && r.phone == p))
        db.reservations d' hrows
      exact ⟨le_trans h.1 (hinv d').1, le_trans h.2 (hinv d').2⟩

/-- Sequences of calls preserve row nonnegativity and the capacity invariant
when every admit call carries a nonnegative family count. -/
theorem runCalls_preserves (cs : List Call) : ∀ db : DB, (∀ c ∈ cs, familyOk c) →
    RowsNonneg db.reservations → CapInv db.reservations →
    RowsNonneg (runCalls db cs).reservations ∧ CapInv (runCalls db cs).reservations := by
  induction cs with
  | nil => exact fun db _ h1 h2 => ⟨h1, h2⟩
  | cons c cs ih =>
    intro db hok h1 h2
    have hstep := stepCall_preserves db c (hok c (by simp)) h1 h2
    have hrun : runCalls db (c :: cs) = runCalls (stepCall db c) cs := rfl
    rw [hrun]
    exact ih (stepCall db c) (fun x hx => hok x (by simp [hx])) hstep.1 hstep.2

/-- C1 counterexample: for the concrete call sequence `seatBreachCalls`
(admit with family count −100, admit with family count 100, cancel the first
booking) the final seat total for `2026-03-05` is 101, far above
`seat_limit` — `add_reservation` never validates the family count, so the
claimed invariant fails for arbitrary call sequences. -/
theorem capacity_invariant_counterexample :
    totalSeats (runCalls emptyDB seatBreachCalls).reservations "2026-03-05" = 101 ∧
    seat_limit < totalSeats (runCalls emptyDB seatBreachCalls).reservations "2026-03-05" := by
  decide

/-- C1 (amended): for every sequence of admit and cancel calls from the empty
database in which every admit's family count is nonnegative (in particular for
the {0, 1} family counts the UI allows), after the whole sequence — and hence
after every prefix, the sequence being arbitrary — every date holds at most
`patient_limit` reservations and at most `seat_limit` total seats. -/
theorem book_cancel_capacity_invariant (cs : List Call)
    (h : ∀ c ∈ cs, familyOk c) (d : String) :
    patientCount (runCalls emptyDB cs).reservations d ≤ patient_limit ∧
    totalSeats (runCalls emptyDB cs).reservations d ≤ seat_limit := by
  have h0rows : RowsNonneg emptyDB.reservations := by
    intro r hr
    simp [emptyDB] at hr
  have h0inv : CapInv emptyDB.reservations := by
    intro d'
    refine ⟨?_, ?_⟩ <;> simp [patientCount, totalSeats, get_reservations, emptyDB,
      patient_limit, seat_limit]
  exact (runCalls_preserves cs emptyDB h h0rows h0inv).2 d

/-- C1 witness: the `okCalls` sequence (admit, cancel, admit with family
counts 1 and 0) satisfies the nonnegativity hypothesis and ends within both
capacity ceilings on `2026-03-05`. -/
theorem book_cancel_capacity_invariant_witness :
    (∀ c ∈ okCalls, familyOk c) ∧
    patientCount (runCalls emptyDB okCalls).reservations "2026-03-05" ≤ patient_limit ∧
    totalSeats (runCalls emptyDB okCalls).reservations "2026-03-05" ≤ seat_limit :=
  ⟨by decide, (book_cancel_capacity_invariant okCalls (by decide) "2026-03-05").1,
   (book_cancel_capacity_invariant okCalls (by decide) "2026-03-05").2⟩

/-- Appending one day to the registry does not change membership tests for any
other day. -/
theorem contains_append_single (l : List Nat) (c x : Nat) (h : x ≠ c) :
    (l ++ [c]).contains x = l.contains x := by
  simp [List.contains, List.mem_append, h]

/-- Characterization of the batch loop over a duplicate-free day list: it
appends exactly the matching days that were absent, and adds their number to
the running count. -/
theorem batch_loop_eq (w : Nat) :
    ∀ (days : List Nat), days.Nodup → ∀ (dates : List Nat) (count : Nat),
      batch_loop dates days w count =
        (dates ++ newMatches dates days w, count + (newMatches dates days w).length) := by
  intro days
  induction days with
  | nil =>
    intro _ dates count
    simp [batch_loop, newMatches]
  | cons curr rest ih =>
    intro hnd dates count
    have hcr : curr ∉ rest := (List.nodup_cons.mp hnd).1
    have hrest : rest.Nodup := (List.nodup_cons.mp hnd).2
    by_cases hw : curr % 7 = w
    · by_cases hm : curr ∈ dates
      · have hstep : batch_loop dates (curr :: rest) w count =
            batch_loop dates rest w count := by
          simp [batch_loop, hw, add_available_date_ord, hm]
        have hnew : newMatches dates (curr :: rest) w = newMatches dates rest w := by
          simp [newMatches, List.filter_cons, hm, hw]
        rw [hstep, hnew, ih hrest dates count]
      · have hstep : batch_loop dates (curr :: rest) w count =
            batch_loop (dates ++ [curr]) rest w (count + 1) := by
          simp [batch_loop, hw, add_available_date_ord, hm]
        have hcongr : newMatches (dates ++ [curr]) rest w = newMatches dates rest w := by
          apply List.filter_congr
          intro x hx
          rw [contains_append_single dates curr x (fun hxc => hcr (hxc ▸ hx))]
        have hnew : newMatches dates (curr :: rest) w =
            curr :: newMatches dates rest w := by
          simp [newMatches, List.filter_cons, hm, hw]
        rw [hstep, ih hrest (dates ++ [curr]) (count + 1), hcongr, hnew]
        simp only [Prod.mk.injEq, List.append_assoc, List.singleton_append,
          List.length_cons]
        exact ⟨trivial, by omega⟩
    · have hstep : batch_loop dates (curr :: rest) w count =
          batch_loop dates rest w count := by
        simp [batch_loop, hw]
      have hnew : newMatches dates (curr :: rest) w = newMatches dates rest w := by
        simp [newMatches, List.filter_cons, hw]
      rw [hstep, hnew, ih hrest dates count]

/-- After the batch has run, no matching day in the same range is still
missing: a second identical filter over the grown registry is empty. -/
theorem newMatches_after_batch (dates days : List Nat) (w : Nat) :
    newMatches (dates ++ newMatches dates days w) days w = [] := by
  apply List.filter_eq_nil_iff.mpr
  intro d hd
  intro hcontra
  have h1 : (d % 7 == w) = true := (Bool.and_eq_true_iff.mp hcontra).1
  have h2 : (!(dates ++ newMatches dates days w).contains d) = true :=
    (Bool.and_eq_true_iff.mp hcontra).2
  have hnotmem : d ∉ dates ++ newMatches dates days w := by
    simpa [List.contains] using h2
  by_cases hm : d ∈ dates
  · exact hnotmem (List.mem_append.mpr (Or.inl hm))
  · have hin : d ∈ newMatches dates days w := by
      apply List.mem_filter.mpr
      exact ⟨hd, by simp [h1, hm]⟩
    exact hnotmem (List.mem_append.mpr (Or.inr hin))

/-- C9: when `start ≤ end`, `batchAddByWeekday` registers exactly the
matching-weekday days of `[start, end]` that were not already present and
returns their number (duplicates silently skipped, not counted), so an
immediately repeated identical call returns 0; when `start > end` it fails as
a whole with the validation error and adds no dates. -/
theorem batchAddByWeekday_spec (dates : List Nat) (start e w : Nat) :
    (start ≤ e →
      batchAddByWeekday dates start e w =
        (dates ++ newMatches dates (List.range' start (e + 1 - start)) w,
         (newMatches dates (List.range' start (e + 1 - start)) w).length,
         true) ∧
      (batchAddByWeekday
          (dates ++ newMatches dates (List.range' start (e + 1 - start)) w)
          start e w).2.1 = 0) ∧
    (e < start → batchAddByWeekday dates start e w = (dates, 0, false)) := by
  constructor
  · intro hle
    have hnd : (List.range' start (e + 1 - start)).Nodup :=
      List.nodup_range' start (e + 1 - start)
    constructor
    · simp only [batchAddByWeekday]
      rw [if_neg (by omega : ¬ start > e),
        batch_loop_eq w (List.range' start (e + 1 - start)) hnd dates 0]
      simp
    · simp only [batchAddByWeekday]
      rw [if_neg (by omega : ¬ start > e),
        batch_loop_eq w (List.range' start (e + 1 - start)) hnd _ 0,
        newMatches_after_batch]
      simp
  · intro hgt
    simp only [batchAddByWeekday]
    rw [if_pos (by omega : start > e)]

/-- C9 witness: over the empty registry, days 0–13 with target weekday 3
register exactly days 3 and 10 (count 2, success flag set); repeating the call
over the grown registry adds nothing (count 0); and a reversed range (start 5,
end 2) fails with the validation error, registry untouched. -/
theorem batchAddByWeekday_spec_witness :
    (0 : Nat) ≤ 13 ∧
    batchAddByWeekday [] 0 13 3 = ([3, 10], 2, true) ∧
    (batchAddByWeekday [3, 10] 0 13 3).2.1 = 0 ∧
    batchAddByWeekday [] 5 2 0 = ([], 0, false) :=
  ⟨by decide,
   (((batchAddByWeekday_spec [] 0 13 3).1 (by decide)).1).trans (by decide),
   by
     have h := ((batchAddByWeekday_spec [] 0 13 3).1 (by decide)).2
     have heq : ([] : List Nat) ++ newMatches [] (List.range' 0 (13 + 1 - 0)) 3 = [3, 10] := by
       decide
     rw [heq] at h
     exact h,
   (batchAddByWeekday_spec [] 5 2 0).2 (by decide)⟩

/-- C8 witness: the empty database and a database whose availability registry
holds `2026-03-10` share the same (empty) reservations, and an admission for
`2026-03-05` returns the same result against both. -/
theorem add_reservation_independent_of_available_dates_witness :
    (⟨[], []⟩ : DB).reservations = (⟨[], ["2026-03-10"]⟩ : DB).reservations ∧
    (add_reservation ⟨[], []⟩ "2026-03-05" "M1" "A" "0900" 0).2 =
      (add_reservation ⟨[], ["2026-03-10"]⟩ "2026-03-05" "M1" "A" "0900" 0).2 :=
  ⟨rfl,
   (add_reservation_independent_of_available_dates.1 ⟨[], []⟩ ⟨[], ["2026-03-10"]⟩ rfl
     "2026-03-05" "M1" "A" "0900" 0).1⟩
